import Mathlib

/-!
Verification of the Multi-Agent-Chat repository against its specification.

Each section shallowly embeds one part of the TypeScript source as Lean
definitions and proves the corresponding claims about it.  Stateful classes
become explicit state-passing functions; `AbortController`s are modelled as a
heap (list) of aborted-flags indexed by allocation order; run tokens (JS
`Symbol`s, unique by construction) are modelled as naturals minted from a
counter; fallible/network results become explicit outcome parameters.
-/

namespace MultiAgentChat

/-! ## Generation controller (src/src/state/generation.ts, token-bearing version)

State of a `GenerationController`.  `sources` is the heap of every
`AbortController` allocated so far (`true` = its signal has aborted);
`current` is the index of `this.controller` (`none` = null);
`runToken`/`nextToken` model the `Symbol('generation-run')` minting. -/
structure GCState where
  sources : List Bool
  current : Option Nat
  isGenerating : Bool
  runToken : Option Nat
  nextToken : Nat
deriving DecidableEq, Repr

/-- The freshly constructed controller: no AbortController, not generating. -/
def GCState.initial : GCState :=
  { sources := [], current := none, isGenerating := false, runToken := none, nextToken := 0 }

/-- `this.controller.abort()` guarded by `if (this.controller)`. -/
def GCState.abortCurrent (s : GCState) : List Bool :=
  match s.current with
  | some i => s.sources.set i true
  | none => s.sources

/-- `start()`: abort the previous controller if any, allocate a fresh
`AbortController`, set `isGenerating = true`, mint a new run token and
return it. -/
def GCState.start (s : GCState) : GCState × Nat :=
  let aborted := s.abortCurrent
  let tok := s.nextToken
  ({ sources := aborted ++ [false]
     current := some aborted.length
     isGenerating := true
     runToken := some tok
     nextToken := tok + 1 }, tok)

/-- `finish(token?)`: `if (token && this.runToken && token !== this.runToken) return;`
then set `isGenerating = false` and null out the controller and the token. -/
def GCState.finish (s : GCState) (tok? : Option Nat) : GCState :=
  match tok?, s.runToken with
  | some t, some r =>
    if t ≠ r then s
    else { s with isGenerating := false, current := none, runToken := none }
  | _, _ => { s with isGenerating := false, current := none, runToken := none }

/-- `stop()`: abort the current controller (if any) and set
`isGenerating = false`; the stored controller and token are kept. -/
def GCState.stop (s : GCState) : GCState :=
  { s with sources := s.abortCurrent, isGenerating := false }

/-- The `signal` getter: lazily allocates a fresh non-aborted controller when
none exists; returns the index of the controller whose signal is handed out. -/
def GCState.signalGet (s : GCState) : GCState × Nat :=
  match s.current with
  | some i => (s, i)
  | none =>
    ({ s with sources := s.sources ++ [false], current := some s.sources.length },
     s.sources.length)

/-! ## Web-search retry loop (src/unnamed/part_012, `fetchWithRetry`)

`statuses i` is the HTTP status the `i`-th fetch attempt (1-based) would
return.  `fetchLoop` mirrors the `for (let i = 1; i <= attempts; i++)` loop:
`rem` is the number of attempts remaining including the current one (the
`rem = 0` base case is the dead `return last!` after the loop).  The result is
the 1-based attempt number of the response returned, paired with the
cumulative backoff delay in milliseconds (`300 * i` added before each retry). -/
def respOk (status : Nat) : Bool := 200 ≤ status ∧ status < 300

def fetchLoop (statuses : Nat → Nat) : Nat → Nat → Nat → Nat × Nat
  | 0, i, delay => (i, delay)
  | rem + 1, i, delay =>
    let s := statuses i
    if respOk s then (i, delay)
    else if 500 ≤ s ∧ rem ≠ 0 then fetchLoop statuses rem (i + 1) (delay + 300 * i)
    else (i, delay)

/-- `fetchWithRetry(attempts = 3)` starting at attempt 1 with no delay yet. -/
def fetchWithRetry (statuses : Nat → Nat) (attempts : Nat) : Nat × Nat :=
  fetchLoop statuses attempts 1 0

/-! ## Sources from web-search results (src/unnamed/part_012, step 0)

`sources = (searchData.results || []).slice(0, maxSources)
             .map(r => ({title, url, content: r.raw_content || ''}))
             .filter(s => s.content)`. -/

/-- One entry of the search proxy's `results` array; `raw_content = ""`
models both an absent and an empty `raw_content` (both are falsy). -/
structure SearchResult where
  title : String
  url : String
  raw_content : String
deriving DecidableEq, Repr

structure Source where
  title : String
  url : String
  content : String
deriving DecidableEq, Repr

/-- The `.map` body: `content` is `r.raw_content || ''`. -/
def toSource (r : SearchResult) : Source :=
  { title := r.title, url := r.url, content := r.raw_content }

/-- The source list the orchestrator attaches to a successful run, as the
code computes it: cap (`slice(0, maxSources)`), then map, then drop empty
content. -/
def sourcesFromResults (results : List SearchResult) (maxSources : Nat) : List Source :=
  ((results.take maxSources).map toSource).filter (fun s => s.content ≠ "")

/-- The order of operations the specification describes: map, drop empty
content, and only then cap.  Kept separate so the two orders can be compared. -/
def sourcesFromResultsSpec (results : List SearchResult) (maxSources : Nat) : List Source :=
  ((results.map toSource).filter (fun s => s.content ≠ "")).take maxSources

/-! ## Always-run cleanup of a run (src/unnamed/part_012, `finally` block) -/

inductive AgentStatus
  | pending
  | initializing
  | writing
  | refining
  | done
deriving DecidableEq, Repr

/-- One entry of the live collaboration-state array (`LiveAgentState`). -/
structure LiveAgent where
  id : Nat
  status : AgentStatus
  response : String
deriving DecidableEq, Repr

/-- The orchestrator's UI state touched by the `finally` block. -/
structure OrchestratorUI where
  isLoading : Bool
  collabState : List LiveAgent
  loadingMessage : String
  progressDone : Nat
  progressTotal : Nat
deriving DecidableEq, Repr

/-- The `finally` block: `setIsLoading(false)` unconditionally;
`setCurrentCollaborationState([])` and `setLoadingMessage('')` only when
`!signal.aborted`; progress counters reset to zero. -/
def runFinallyCleanup (aborted : Bool) (ui : OrchestratorUI) : OrchestratorUI :=
  let ui1 := { ui with isLoading := false }
  let ui2 := if aborted then ui1 else { ui1 with collabState := [], loadingMessage := "" }
  { ui2 with progressDone := 0, progressTotal := 0 }

/-- The `finally` block also finishes the controller with the run token
captured at step 1 (`generationControllerRef.current.finish(runToken)`). -/
def runFinallyStep (aborted : Bool) (ui : OrchestratorUI) (gc : GCState) (runToken : Nat) :
    OrchestratorUI × GCState :=
  (runFinallyCleanup aborted ui, gc.finish (some runToken))

/-! ## Default system instructions (src/src/constants.ts) -/

/-- Line 9 of src/src/constants.ts, character for character. -/
def INITIAL_SYSTEM_INSTRUCTION : String :=
  "You are one of four collaborative agents. Your task is to provide an initial, concise, and factual response to the user's query. This is a first draft that your peers will critique and refine. Your work is internal and feeds into a final, synthesized answer. If web context is provided, you MUST base your response on the information from the provided sources."

/-- The Initial instruction as the specification quotes it. -/
def specInitialInstruction : String :=
  "You are one of four collaborative agents. Your task is to provide an initial, concise, and factual response to the user's query. This is a first draft that your peers will critique and refine. Your work is internal and feeds into a final, synthesized answer."

/-- The sentence the code appends beyond the specification's quotation. -/
def webContextSentence : String :=
  " If web context is provided, you MUST base your response on the information from the provided sources."

/-! ## Title sanitation (src/src/components/App.tsx, `sanitizeTitle`)

The JS steps, modelled over `List Char`:
1. `replace(/[`*_#>\[\]()]/g, '')` — drop Markdown punctuation characters;
2. `replace(/^\s*"+|"+\s*$/g, '')` — drop a leading whitespace-then-quotes
   run and a trailing quotes-then-whitespace run (each only when at least one
   quote is present);
3. `replace(/\s+/g, ' ').trim()` — collapse whitespace runs to single spaces
   and trim; empty result defaults to "New Chat";
4. `split(' ').slice(0, 5).join(' ')` — keep the first 5 words;
5. `if (s.length > 64) s = s.slice(0, 64).trim()`. -/

/-- The character class of step 1 (backtick written via its code point). -/
def mdChars : List Char := [Char.ofNat 96, '*', '_', '#', '>', '[', ']', '(', ')']

/-- Code points matched by JavaScript's `\s` (WhiteSpace plus LineTerminator). -/
def jsSpaceCodes : List Nat :=
  [9, 10, 11, 12, 13, 32, 160, 5760, 8192, 8193, 8194, 8195, 8196, 8197, 8198,
   8199, 8200, 8201, 8202, 8232, 8233, 8239, 8287, 12288, 65279]

def isJsSpace (c : Char) : Bool := jsSpaceCodes.contains c.toNat

/-- The double-quote character, by code point. -/
def quoteChar : Char := Char.ofNat 34

/-- Step 1: remove every Markdown punctuation character. -/
def stripMd (l : List Char) : List Char := l.filter (fun c => decide (c ∉ mdChars))

/-- The `^\s*"+` alternative of step 2: anchored at the start, it consumes
leading whitespace followed by at least one quote (greedily). -/
def dropLeadingQuotes (l : List Char) : List Char :=
  if (l.dropWhile isJsSpace).head? = some quoteChar then
    (l.dropWhile isJsSpace).dropWhile (fun c => c = quoteChar)
  else l

/-- The `"+\s*$` alternative of step 2: anchored at the end, it consumes at
least one quote followed by trailing whitespace. -/
def dropTrailingQuotes (l : List Char) : List Char :=
  if (l.reverse.dropWhile isJsSpace).head? = some quoteChar then
    ((l.reverse.dropWhile isJsSpace).dropWhile (fun c => c = quoteChar)).reverse
  else l

/-- Step 3's `replace(/\s+/g, ' ')`: each maximal whitespace run becomes one
space.  The flag records whether the previous character was whitespace. -/
def collapseWsAux : Bool → List Char → List Char
  | _, [] => []
  | prevSpace, c :: rest =>
    if isJsSpace c then
      if prevSpace then collapseWsAux true rest
      else ' ' :: collapseWsAux true rest
    else c :: collapseWsAux false rest

def collapseWs (l : List Char) : List Char := collapseWsAux false l

/-- JavaScript `trim()`: drop `\s` characters from both ends. -/
def trimJs (l : List Char) : List Char :=
  ((l.dropWhile isJsSpace).reverse.dropWhile isJsSpace).reverse

/-- `split(' ')`: split at every single space, keeping empty segments. -/
def splitOnSpaceAux : List Char → List Char → List (List Char)
  | cur, [] => [cur.reverse]
  | cur, c :: rest =>
    if c = ' ' then cur.reverse :: splitOnSpaceAux [] rest
    else splitOnSpaceAux (c :: cur) rest

def splitOnSpace (l : List Char) : List (List Char) := splitOnSpaceAux [] l

/-- `join(' ')`. -/
def joinSpace : List (List Char) → List Char
  | [] => []
  | [w] => w
  | w :: ws => w ++ ' ' :: joinSpace ws

/-- The collapsed-and-trimmed step-3 string (the `s` tested against ''). -/
def titleTrimmed (t : List Char) : List Char :=
  trimJs (collapseWs (dropTrailingQuotes (dropLeadingQuotes (stripMd t))))

/-- The first five words of the step-3 string, re-joined with spaces. -/
def titleJoined (t : List Char) : List Char :=
  joinSpace ((splitOnSpace (titleTrimmed t)).take 5)

/-- `sanitizeTitle` over a character list.  The surrounding `try`/`catch`
cannot fire in this pure model; `(t || '')` is the identity on strings. -/
def sanitizeList (t : List Char) : List Char :=
  if titleTrimmed t = [] then "New Chat".data
  else if 64 < (titleJoined t).length then trimJs ((titleJoined t).take 64)
  else titleJoined t

def sanitizeTitle (t : String) : String := String.mk (sanitizeList t.data)

/-- Number of words of a string: maximal runs of non-whitespace characters.
The flag records whether we are inside a word. -/
def wordCountAux : Bool → List Char → Nat
  | _, [] => 0
  | inWord, c :: rest =>
    if isJsSpace c then wordCountAux false rest
    else (if inWord then 0 else 1) + wordCountAux true rest

def wordCount (l : List Char) : Nat := wordCountAux false l

/-! ## Log store (src/unnamed/part_003) -/

inductive LogLevel
  | debug
  | info
  | warn
  | error
deriving DecidableEq, Repr

structure AppLog where
  ts : String
  level : LogLevel
  message : String
  data : Option String
deriving DecidableEq, Repr

/-- The module state: the in-memory `buffer` plus the most recent value
written under the localStorage key `app-logs-snapshot`. -/
structure LogStoreState where
  buffer : List AppLog
  snapshot : List AppLog
deriving DecidableEq, Repr

/-- `slice(-n)`: the last `n` elements (the whole list when shorter). -/
def takeLast (n : Nat) (l : List α) : List α := l.drop (l.length - n)

/-- `addLog`: push the entry and mirror `buffer.slice(-500)` to storage
(modelling the successful-write case; storage errors are swallowed). -/
def addLogStep (s : LogStoreState) (e : AppLog) : LogStoreState :=
  let b := s.buffer ++ [e]
  { buffer := b, snapshot := takeLast 500 b }

/-- `getLogs()` returns a copy of the full in-memory buffer. -/
def getLogs (s : LogStoreState) : List AppLog := s.buffer

/-- A sequence of `addLog` calls, one per entry, in order. -/
def addLogs (s : LogStoreState) (es : List AppLog) : LogStoreState :=
  es.foldl addLogStep s

def emptyLogStore : LogStoreState := { buffer := [], snapshot := [] }

/-! ## Model listing (src/unnamed/part_013, `fetchGeminiModels`, merged version)

An entry of a listing response; `""` models an absent (falsy) field. -/
structure RawModel where
  name : String
  id : String
  displayName : String
  description : String
deriving DecidableEq, Repr

structure ModelOption where
  id : String
  label : String
deriving DecidableEq, Repr

/-- `const rawId = (m.name || m.id || '')`. -/
def rawIdOf (m : RawModel) : String := if m.name ≠ "" then m.name else m.id

/-- `rawId.replace(/^models\//, '')`: strip one leading `models/` (written
over the character list of the string). -/
def stripModelsTag (s : String) : String :=
  if s.data.take 7 = "models/".data then String.mk (s.data.drop 7) else s

/-- `const label = (m.displayName || m.description || id)`. -/
def labelOf (m : RawModel) (id : String) : String :=
  if m.displayName ≠ "" then m.displayName
  else if m.description ≠ "" then m.description
  else id

/-- The normalize/de-duplicate loop: `seen` is the set of ids already kept
(first occurrence wins); empty raw ids are skipped. -/
def normalizeModels : List RawModel → List String → List ModelOption
  | [], _ => []
  | m :: rest, seen =>
    let rawId := rawIdOf m
    if rawId = "" then normalizeModels rest seen
    else
      let id := stripModelsTag rawId
      if id ∈ seen then normalizeModels rest seen
      else { id := id, label := labelOf m id } :: normalizeModels rest (id :: seen)

/-- The comparator `(a, b) => a.id.localeCompare(b.id)`, modelled as the
standard string order on ids. -/
def modelLE (a b : ModelOption) : Prop := a.id ≤ b.id

instance : DecidableRel modelLE := fun a b => inferInstanceAs (Decidable (a.id ≤ b.id))

instance : IsTotal ModelOption modelLE := ⟨fun a b => le_total a.id b.id⟩

instance : IsTrans ModelOption modelLE := ⟨fun _ _ _ h h2 => le_trans h h2⟩

/-- `fetchGeminiModels`, abstracted over the network: each argument is the
concatenation of the pages `listAll` collected for one base URL (v1 and
v1beta respectively), with `none` modelling a transport failure on that base
(which contributes nothing).  The missing-key early return and the paging
mechanics are outside this pure core. -/
def fetchGeminiModels (v1 v1beta : Option (List RawModel)) : List ModelOption :=
  let collected := v1.getD [] ++ v1beta.getD []
  List.insertionSort modelLE (normalizeModels collected [])

/-- The stripped ids a list of raw entries contributes (empty raw ids skipped). -/
def candidateIds (ms : List RawModel) : List String :=
  (ms.filter (fun m => rawIdOf m ≠ "")).map (fun m => stripModelsTag (rawIdOf m))

/-! ## SearchTool.execute (src/unnamed/part_011) -/

/-- The `input.query` field as JavaScript sees it: absent (or the whole
`input` undefined), present but not a string, or an actual string (the empty
string is falsy and also fails the check). -/
inductive QueryField
  | absent
  | nonstring
  | str (s : String)
deriving DecidableEq, Repr

/-- `!query || typeof query !== 'string'` — `some s` iff the check passes. -/
def queryValid : QueryField → Option String
  | .str s => if s ≠ "" then some s else none
  | _ => none

/-- Outcome of `resp.json()`: it may reject, or produce a body whose
`results` field is an array (`some rs`) or absent/non-array (`none`). -/
inductive BodyOutcome
  | jsonThrown (name : String) (message : String)
  | json (results : Option (List SearchResult))
deriving DecidableEq, Repr

/-- Outcome of the `fetch` call: rejected with an error (its `name` and
`message`), or resolved with a status and a body outcome. -/
inductive FetchOutcome
  | thrown (name : String) (message : String)
  | response (status : Nat) (body : BodyOutcome)
deriving DecidableEq, Repr

/-- The tool's result: `{ok:true, data:{results}}` or `{ok:false, error}`. -/
inductive ToolResult
  | success (results : List SearchResult)
  | failure (error : String)
deriving DecidableEq, Repr

/-- The `catch` clause: `AbortError` maps to "aborted", otherwise
`e?.message || 'error'`. -/
def errMessageOf (name message : String) : String :=
  if name = "AbortError" then "aborted"
  else if message ≠ "" then message
  else "error"

/-- `Math.min(Math.max(1, maxResults), 10)` with default `maxResults = 3`. -/
def clampMaxResults (mr : Option Int) : Int := min (max 1 (mr.getD 3)) 10

/-- `SearchTool.execute`, with the fetch outcome passed explicitly.  The
boolean records whether the network call was performed.  `resp.ok` is
status 200–299; on a non-ok response `resp.json()` is never reached. -/
def searchExecute (query : QueryField) (outcome : FetchOutcome) : ToolResult × Bool :=
  match queryValid query with
  | none => (ToolResult.failure "Missing query", false)
  | some _ =>
    match outcome with
    | .thrown name message => (.failure (errMessageOf name message), true)
    | .response status body =>
      if 200 ≤ status ∧ status < 300 then
        match body with
        | .jsonThrown name message => (.failure (errMessageOf name message), true)
        | .json rs? => (.success (rs?.getD []), true)
      else (.failure ("search failed: " ++ toString status), true)

/-! # Theorems -/

/-- Claim C1: calling `start()` while a previous run's cancellation source
exists aborts that source (its aborted flag becomes `true`) in the state in
which the new run's token is returned; the newly installed source starts
un-aborted, so at most one run's source is live. -/
theorem controller_start_aborts_previous (s : GCState) (i : Nat)
    (hc : s.current = some i) (hi : i < s.sources.length) :
    s.start.1.sources[i]? = some true ∧
    s.start.1.sources[s.abortCurrent.length]? = some false ∧
    s.start.1.current = some s.abortCurrent.length := by
  have hab : s.abortCurrent = s.sources.set i true := by
    unfold GCState.abortCurrent
    rw [hc]
  have hlen : s.abortCurrent.length = s.sources.length := by
    rw [hab, List.length_set]
  refine ⟨?_, ?_, ?_⟩
  · show (s.abortCurrent ++ [false])[i]? = some true
    rw [List.getElem?_append, if_pos (by omega), hab]
    exact List.getElem?_set_eq_of_lt true hi
  · show (s.abortCurrent ++ [false])[s.abortCurrent.length]? = some false
    simp
  · rfl

/-- Witness for C1 at a concrete controller state with one live source. -/
theorem controller_start_aborts_previous_witness :
    (({ sources := [false], current := some 0, isGenerating := true,
        runToken := some 0, nextToken := 1 } : GCState).current = some 0) ∧
    (({ sources := [false], current := some 0, isGenerating := true,
        runToken := some 0, nextToken := 1 } : GCState).start.1.sources[0]? = some true) :=
  ⟨rfl,
    (controller_start_aborts_previous
      { sources := [false], current := some 0, isGenerating := true,
        runToken := some 0, nextToken := 1 } 0 rfl (by decide)).1⟩

/-- Claim C2: `finish` with a token different from the current run token is a
no-op; `finish` with the matching token, or with no token, clears
`isGenerating`, the stored source and the stored token; and after two
`start()` calls, finishing with the first run's token leaves run B's state
intact (`isGenerating` still `true`). -/
theorem controller_finish_token_discipline (s : GCState) (t r : Nat) :
    (s.runToken = some r → t ≠ r → s.finish (some t) = s) ∧
    (s.runToken = some r →
      s.finish (some r) = { s with isGenerating := false, current := none, runToken := none }) ∧
    (s.finish none = { s with isGenerating := false, current := none, runToken := none }) ∧
    (s.start.1.start.1.finish (some s.start.2) = s.start.1.start.1 ∧
      s.start.1.start.1.isGenerating = true) := by
  refine ⟨?_, ?_, ?_, ?_, rfl⟩
  · intro hr hne
    unfold GCState.finish
    rw [hr]
    simp [hne]
  · intro hr
    unfold GCState.finish
    rw [hr]
    simp
  · unfold GCState.finish
    rfl
  · show GCState.finish _ (some s.nextToken) = _
    unfold GCState.finish
    have : s.start.1.start.1.runToken = some (s.nextToken + 1) := rfl
    rw [this]
    simp

/-- Witness for C2: the stale-finish no-op at a concrete state. -/
theorem controller_finish_token_discipline_witness :
    ({ sources := [true, false], current := some 1, isGenerating := true,
       runToken := some 7, nextToken := 8 } : GCState).finish (some 3) =
    { sources := [true, false], current := some 1, isGenerating := true,
      runToken := some 7, nextToken := 8 } :=
  (controller_finish_token_discipline
    { sources := [true, false], current := some 1, isGenerating := true,
      runToken := some 7, nextToken := 8 } 3 7).1 rfl (by decide)

/-- Claim C4: the web-search POST is retried only on 5xx with `300ms × attempt`
backoff and at most 3 attempts: a 503, 503, 200 sequence returns the third
response after 300 + 600 = 900 ms of cumulative delay; a first response that
is ok, or a failure below 500 (covering every 4xx), is returned immediately
with no retry; all-503 exhausts the 3 attempts and returns the third. -/
theorem websearch_retry_on_5xx_only (statuses : Nat → Nat) :
    fetchWithRetry (fun i => if i = 1 then 503 else if i = 2 then 503 else 200) 3 = (3, 900) ∧
    (200 ≤ statuses 1 → statuses 1 < 300 → fetchWithRetry statuses 3 = (1, 0)) ∧
    (statuses 1 < 500 → ¬ (200 ≤ statuses 1 ∧ statuses 1 < 300) →
      fetchWithRetry statuses 3 = (1, 0)) ∧
    ((∀ i, statuses i = 503) → fetchWithRetry statuses 3 = (3, 900)) := by
  refine ⟨by decide, ?_, ?_, ?_⟩
  · intro h1 h2
    have hok : respOk (statuses 1) = true := by
      simp [respOk]
      omega
    simp [fetchWithRetry, fetchLoop, hok]
  · intro h1 h2
    have hok : respOk (statuses 1) = false := by
      simp [respOk]
      omega
    have h5 : ¬ (500 ≤ statuses 1 ∧ (2 : Nat) ≠ 0) := by
      intro hcon
      omega
    simp only [fetchWithRetry, fetchLoop, hok]
    rw [if_neg h5]
    simp
  · intro hall
    simp [fetchWithRetry, fetchLoop, hall, respOk]

/-- Witness for C4: a 404 first response is returned with no retry. -/
theorem websearch_retry_on_5xx_only_witness :
    fetchWithRetry (fun _ => 404) 3 = (1, 0) :=
  (websearch_retry_on_5xx_only (fun _ => 404)).2.2.1 (by decide) (by decide)

/-- Claim C5: the always-run cleanup clears `isLoading` (and the progress
counters) unconditionally, while the live collaboration state and the loading
message are left untouched when the run's signal was aborted and are cleared
otherwise. -/
theorem cleanup_preserves_partial_ui_on_abort (aborted : Bool) (ui : OrchestratorUI) :
    (runFinallyCleanup aborted ui).isLoading = false ∧
    (runFinallyCleanup aborted ui).progressDone = 0 ∧
    (runFinallyCleanup aborted ui).progressTotal = 0 ∧
    (aborted = true → (runFinallyCleanup aborted ui).collabState = ui.collabState ∧
      (runFinallyCleanup aborted ui).loadingMessage = ui.loadingMessage) ∧
    (aborted = false → (runFinallyCleanup aborted ui).collabState = [] ∧
      (runFinallyCleanup aborted ui).loadingMessage = "") := by
  cases aborted <;> simp [runFinallyCleanup]

/-- Witness for C5 at a cancelled run with visible partial state. -/
theorem cleanup_preserves_partial_ui_on_abort_witness :
    (runFinallyCleanup true
      { isLoading := true, collabState := [{ id := 0, status := .writing, response := "part" }],
        loadingMessage := "Writing", progressDone := 2, progressTotal := 9 }).collabState =
      [{ id := 0, status := .writing, response := "part" }] ∧
    (runFinallyCleanup true
      { isLoading := true, collabState := [{ id := 0, status := .writing, response := "part" }],
        loadingMessage := "Writing", progressDone := 2, progressTotal := 9 }).loadingMessage =
      "Writing" :=
  (cleanup_preserves_partial_ui_on_abort true
    { isLoading := true, collabState := [{ id := 0, status := .writing, response := "part" }],
      loadingMessage := "Writing", progressDone := 2, progressTotal := 9 }).2.2.2.1 rfl

set_option maxRecDepth 20000 in
/-- Claim C6 counterexample: the code's Initial system-instruction constant is
not character-for-character the string the specification quotes (the code
appends a further sentence about web context). -/
theorem initial_instruction_differs_from_spec :
    INITIAL_SYSTEM_INSTRUCTION ≠ specInitialInstruction := by decide

set_option maxRecDepth 20000 in
/-- Claim C6 amended: the Initial system-instruction constant equals the
specification's quoted string followed by the sentence " If web context is
provided, you MUST base your response on the information from the provided
sources." -/
theorem initial_instruction_value :
    INITIAL_SYSTEM_INSTRUCTION = specInitialInstruction ++ webContextSentence := by decide

/-- Claim C3 counterexample: the code caps the results to the maximum first
and only then drops empty-content entries, so with an empty-content result
among the first `maxSources` the two orders disagree: the code keeps 2
sources where the claimed filter-then-cap order would keep 3. -/
theorem sources_order_counterexample :
    sourcesFromResults
        [{ title := "a", url := "ua", raw_content := "" },
         { title := "b", url := "ub", raw_content := "B" },
         { title := "c", url := "uc", raw_content := "C" },
         { title := "d", url := "ud", raw_content := "D" }] 3 ≠
      sourcesFromResultsSpec
        [{ title := "a", url := "ua", raw_content := "" },
         { title := "b", url := "ub", raw_content := "B" },
         { title := "c", url := "uc", raw_content := "C" },
         { title := "d", url := "ud", raw_content := "D" }] 3 := by decide

/-- Claim C3 amended: the Source list equals the response's results capped to
the configured maximum source count first and then mapped to Source records
with empty-content entries dropped (the cap precedes the filter); in
consequence the list never exceeds the cap and never contains an
empty-content source. -/
theorem sources_cap_then_filter (results : List SearchResult) (m : Nat) :
    sourcesFromResults results m =
      ((results.map toSource).take m).filter (fun s => s.content ≠ "") ∧
    (sourcesFromResults results m).length ≤ m ∧
    (∀ s ∈ sourcesFromResults results m, s.content ≠ "") := by
  refine ⟨?_, ?_, ?_⟩
  · unfold sourcesFromResults
    rw [List.map_take]
  · calc (sourcesFromResults results m).length
        ≤ ((results.take m).map toSource).length := List.length_filter_le _ _
      _ ≤ m := by
          rw [List.length_map, List.length_take]
          omega
  · intro s hs
    have := List.of_mem_filter hs
    simpa using this

/-- Witness for C3's amended claim: the kept source "B" has nonempty content. -/
theorem sources_cap_then_filter_witness :
    ({ title := "b", url := "ub", content := "B" } : Source).content ≠ "" :=
  (sources_cap_then_filter
    [{ title := "a", url := "ua", raw_content := "" },
     { title := "b", url := "ub", raw_content := "B" }] 3).2.2
    { title := "b", url := "ub", content := "B" } (by decide)

/-- Claim C8: after a sequence of more than 500 `addLog` calls starting from
the empty store, the localStorage snapshot holds exactly the most recent 500
entries in insertion order, while `getLogs()` returns the full sequence. -/
theorem log_cap_vs_full_buffer (es : List AppLog) (h : 500 < es.length) :
    getLogs (addLogs emptyLogStore es) = es ∧
    (addLogs emptyLogStore es).snapshot = es.drop (es.length - 500) ∧
    (addLogs emptyLogStore es).snapshot.length = 500 := by
  have hbuf : ∀ (s : LogStoreState) (l : List AppLog), (addLogs s l).buffer = s.buffer ++ l := by
    intro s l
    induction l generalizing s with
    | nil => simp [addLogs]
    | cons e rest ih =>
      have : addLogs s (e :: rest) = addLogs (addLogStep s e) rest := rfl
      rw [this, ih]
      simp [addLogStep]
  have hsnap : ∀ (s : LogStoreState) (e : AppLog) (l : List AppLog),
      (addLogs s (e :: l)).snapshot = takeLast 500 (s.buffer ++ e :: l) := by
    intro s e l
    induction l generalizing s e with
    | nil => simp [addLogs, addLogStep]
    | cons f rest ih =>
      have : addLogs s (e :: f :: rest) = addLogs (addLogStep s e) (f :: rest) := rfl
      rw [this, ih]
      simp [addLogStep]
  obtain ⟨e, rest, rfl⟩ : ∃ e rest, es = e :: rest := by
    cases es with
    | nil => simp at h
    | cons e rest => exact ⟨e, rest, rfl⟩
  refine ⟨?_, ?_, ?_⟩
  · show (addLogs emptyLogStore (e :: rest)).buffer = e :: rest
    rw [hbuf]
    rfl
  · rw [hsnap]
    rfl
  · rw [hsnap]
    show ((e :: rest).drop ((e :: rest).length - 500)).length = 500
    rw [List.length_drop]
    simp at h ⊢
    omega

/-- A concrete log entry for the C8 witness. -/
def sampleLog : AppLog := { ts := "t0", level := .info, message := "hello", data := none }

/-- Witness for C8 on 501 identical `addLog` calls. -/
theorem log_cap_vs_full_buffer_witness :
    500 < (List.replicate 501 sampleLog).length ∧
    (getLogs (addLogs emptyLogStore (List.replicate 501 sampleLog)) =
        List.replicate 501 sampleLog ∧
      (addLogs emptyLogStore (List.replicate 501 sampleLog)).snapshot =
        (List.replicate 501 sampleLog).drop ((List.replicate 501 sampleLog).length - 500) ∧
      (addLogs emptyLogStore (List.replicate 501 sampleLog)).snapshot.length = 500) :=
  ⟨by rw [List.length_replicate]; omega,
   log_cap_vs_full_buffer _ (by rw [List.length_replicate]; omega)⟩

/-- Claim C10: `SearchTool.execute` always produces a `ToolResult` (success
or a failure carrying a string error); a missing, non-string or empty query
yields `{ok:false, error:"Missing query"}` with no network call; a rejected
fetch with name `AbortError` yields "aborted"; a non-2xx status yields
"search failed: <status>" ; any other rejection yields its message (or
"error" when empty); an ok response with a missing/non-array `results` field
succeeds with an empty list. -/
theorem searchtool_execute_total (q : QueryField) (oc : FetchOutcome) :
    ((∃ rs, (searchExecute q oc).1 = .success rs) ∨
      (∃ err, (searchExecute q oc).1 = .failure err)) ∧
    (queryValid q = none → searchExecute q oc = (.failure "Missing query", false)) ∧
    (∀ s, queryValid q = some s → ∀ m,
      searchExecute q (.thrown "AbortError" m) = (.failure "aborted", true)) ∧
    (∀ s, queryValid q = some s → ∀ name m, name ≠ "AbortError" → m ≠ "" →
      searchExecute q (.thrown name m) = (.failure m, true)) ∧
    (∀ s, queryValid q = some s → ∀ name, name ≠ "AbortError" →
      searchExecute q (.thrown name "") = (.failure "error", true)) ∧
    (∀ s, queryValid q = some s → ∀ status body, ¬ (200 ≤ status ∧ status < 300) →
      searchExecute q (.response status body) =
        (.failure ("search failed: " ++ toString status), true)) ∧
    (∀ s, queryValid q = some s → ∀ status, 200 ≤ status → status < 300 →
      searchExecute q (.response status (.json none)) = (.success [], true)) := by
  refine ⟨?_, ?_, ?_, ?_, ?_, ?_, ?_⟩
  · rcases h : (searchExecute q oc).1 with rs | err
    · exact Or.inl ⟨_, rfl⟩
    · exact Or.inr ⟨_, rfl⟩
  · intro hq
    simp [searchExecute, hq]
  · intro s hq m
    simp [searchExecute, hq, errMessageOf]
  · intro s hq name m hname hm
    simp [searchExecute, hq, errMessageOf, hname, hm]
  · intro s hq name hname
    simp [searchExecute, hq, errMessageOf, hname]
  · intro s hq status body hst
    simp [searchExecute, hq, hst]
  · intro s hq status h1 h2
    simp [searchExecute, hq, h1, h2]

/-- Witness for C10: an empty-string query fails with "Missing query" and no
network call. -/
theorem searchtool_execute_total_witness :
    searchExecute (.str "") (.response 200 (.json (some []))) =
      (.failure "Missing query", false) :=
  (searchtool_execute_total (.str "") (.response 200 (.json (some [])))).2.1 (by decide)

/-- Unfolding equation for the normalize loop on a cons cell. -/
theorem normalizeModels_cons (m : RawModel) (rest : List RawModel) (seen : List String) :
    normalizeModels (m :: rest) seen =
      if rawIdOf m = "" then normalizeModels rest seen
      else if stripModelsTag (rawIdOf m) ∈ seen then normalizeModels rest seen
      else { id := stripModelsTag (rawIdOf m), label := labelOf m (stripModelsTag (rawIdOf m)) } ::
        normalizeModels rest (stripModelsTag (rawIdOf m) :: seen) := rfl

/-- Every option the normalize loop emits has an id outside the seen set. -/
theorem normalizeModels_id_not_seen :
    ∀ (ms : List RawModel) (seen : List String) (o : ModelOption),
      o ∈ normalizeModels ms seen → o.id ∉ seen := by
  intro ms
  induction ms with
  | nil =>
    intro seen o h
    simp [normalizeModels] at h
  | cons m rest ih =>
    intro seen o h
    rw [normalizeModels_cons] at h
    by_cases h1 : rawIdOf m = ""
    · rw [if_pos h1] at h
      exact ih seen o h
    · rw [if_neg h1] at h
      by_cases h2 : stripModelsTag (rawIdOf m) ∈ seen
      · rw [if_pos h2] at h
        exact ih seen o h
      · rw [if_neg h2] at h
        rcases List.mem_cons.mp h with rfl | h3
        · exact h2
        · intro hmem
          exact ih _ o h3 (List.mem_cons_of_mem _ hmem)

/-- An id occurs among the emitted options iff it is outside the seen set and
among the (nonempty, stripped) candidate ids of the input. -/
theorem normalizeModels_mem_ids :
    ∀ (ms : List RawModel) (seen : List String) (a : String),
      a ∈ (normalizeModels ms seen).map ModelOption.id ↔
        (a ∉ seen ∧ a ∈ candidateIds ms) := by
  intro ms
  induction ms with
  | nil =>
    intro seen a
    simp [normalizeModels, candidateIds]
  | cons m rest ih =>
    intro seen a
    rw [normalizeModels_cons]
    by_cases h1 : rawIdOf m = ""
    · rw [if_pos h1]
      have hc : candidateIds (m :: rest) = candidateIds rest := by
        simp [candidateIds, List.filter_cons, h1]
      rw [hc]
      exact ih seen a
    · have hc : candidateIds (m :: rest) =
          stripModelsTag (rawIdOf m) :: candidateIds rest := by
        simp [candidateIds, List.filter_cons, h1]
      rw [if_neg h1, hc]
      by_cases h2 : stripModelsTag (rawIdOf m) ∈ seen
      · rw [if_pos h2, ih seen a]
        constructor
        · rintro ⟨hns, hmem⟩
          exact ⟨hns, List.mem_cons_of_mem _ hmem⟩
        · rintro ⟨hns, hmem⟩
          rcases List.mem_cons.mp hmem with rfl | hmem2
          · exact absurd h2 hns
          · exact ⟨hns, hmem2⟩
      · rw [if_neg h2]
        simp only [List.map_cons, List.mem_cons, ih]
        constructor
        · rintro (rfl | ⟨hns, hmem⟩)
          · exact ⟨h2, Or.inl rfl⟩
          · exact ⟨fun hs => hns (Or.inr hs), Or.inr hmem⟩
        · rintro ⟨hns, rfl | hmem2⟩
          · exact Or.inl rfl
          · by_cases ha : a = stripModelsTag (rawIdOf m)
            · exact Or.inl ha
            · exact Or.inr ⟨fun hcon => hcon.elim ha hns, hmem2⟩

/-- The emitted options carry pairwise distinct ids. -/
theorem normalizeModels_ids_nodup :
    ∀ (ms : List RawModel) (seen : List String),
      ((normalizeModels ms seen).map ModelOption.id).Nodup := by
  intro ms
  induction ms with
  | nil =>
    intro seen
    simp [normalizeModels]
  | cons m rest ih =>
    intro seen
    rw [normalizeModels_cons]
    by_cases h1 : rawIdOf m = ""
    · rw [if_pos h1]
      exact ih seen
    · rw [if_neg h1]
      by_cases h2 : stripModelsTag (rawIdOf m) ∈ seen
      · rw [if_pos h2]
        exact ih seen
      · rw [if_neg h2]
        rw [List.map_cons, List.nodup_cons]
        refine ⟨?_, ih _⟩
        intro hcon
        have := (normalizeModels_mem_ids rest (stripModelsTag (rawIdOf m) :: seen) _).mp hcon
        exact this.1 (List.mem_cons_self _ _)

/-- Candidate ids distribute over concatenation of the two endpoints' lists. -/
theorem candidateIds_append (l1 l2 : List RawModel) :
    candidateIds (l1 ++ l2) = candidateIds l1 ++ candidateIds l2 := by
  simp [candidateIds, List.filter_append]

/-- Claim C9: `fetchGeminiModels` merges both endpoints' collected entries,
strips the leading "models/" from ids, de-duplicates by id, and returns a
list sorted ascending by id; ids of the output are exactly the nonempty
stripped ids collected from either endpoint, each occurring exactly once —
in particular an id appearing in both the v1 and v1beta responses appears
exactly once. -/
theorem gemini_models_merge_dedup_sort (v1 v1beta : Option (List RawModel)) (a : String) :
    List.Sorted modelLE (fetchGeminiModels v1 v1beta) ∧
    ((fetchGeminiModels v1 v1beta).map ModelOption.id).Nodup ∧
    (a ∈ (fetchGeminiModels v1 v1beta).map ModelOption.id ↔
      a ∈ candidateIds (v1.getD [] ++ v1beta.getD [])) ∧
    (a ∈ candidateIds (v1.getD []) → a ∈ candidateIds (v1beta.getD []) →
      ((fetchGeminiModels v1 v1beta).map ModelOption.id).count a = 1) := by
  have hperm :
      List.Perm ((fetchGeminiModels v1 v1beta).map ModelOption.id)
        ((normalizeModels (v1.getD [] ++ v1beta.getD []) []).map ModelOption.id) :=
    (List.perm_insertionSort modelLE _).map _
  have hnodup : ((fetchGeminiModels v1 v1beta).map ModelOption.id).Nodup :=
    hperm.nodup_iff.mpr (normalizeModels_ids_nodup _ [])
  have hmem : a ∈ (fetchGeminiModels v1 v1beta).map ModelOption.id ↔
      a ∈ candidateIds (v1.getD [] ++ v1beta.getD []) := by
    rw [hperm.mem_iff, normalizeModels_mem_ids]
    simp
  refine ⟨List.sorted_insertionSort modelLE _, hnodup, hmem, ?_⟩
  intro h1 h2
  have hin : a ∈ (fetchGeminiModels v1 v1beta).map ModelOption.id := by
    rw [hmem, candidateIds_append]
    exact List.mem_append_left _ h1
  exact List.count_eq_one_of_mem hnodup hin

/-- Witness for C9: "gemini-pro" listed by both v1 (with prefix) and v1beta
appears exactly once in the merged output. -/
theorem gemini_models_merge_dedup_sort_witness :
    ((fetchGeminiModels
        (some [{ name := "models/gemini-pro", id := "", displayName := "G Pro", description := "" }])
        (some [{ name := "gemini-pro", id := "", displayName := "", description := "" }])).map
      ModelOption.id).count "gemini-pro" = 1 :=
  (gemini_models_merge_dedup_sort
    (some [{ name := "models/gemini-pro", id := "", displayName := "G Pro", description := "" }])
    (some [{ name := "gemini-pro", id := "", displayName := "", description := "" }])
    "gemini-pro").2.2.2 (by decide) (by decide)

/-! ### Supporting lemmas for the title-sanitation claim -/

/-- Unfolding equations for the word counter. -/
theorem wordCountAux_cons (b : Bool) (c : Char) (rest : List Char) :
    wordCountAux b (c :: rest) =
      if isJsSpace c then wordCountAux false rest
      else (if b then 0 else 1) + wordCountAux true rest := rfl

/-- The number of words is at most the number of whitespace characters plus
one (each word after the first needs a separating whitespace character). -/
theorem wordCountAux_le_countP (l : List Char) :
    wordCountAux true l ≤ l.countP isJsSpace ∧
    wordCountAux false l ≤ l.countP isJsSpace + 1 := by
  induction l with
  | nil => simp [wordCountAux]
  | cons c rest ih =>
    have h1 := ih.1
    have h2 := ih.2
    cases hc : isJsSpace c with
    | true =>
      simp [wordCountAux_cons, List.countP_cons, hc]
      omega
    | false =>
      simp [wordCountAux_cons, List.countP_cons, hc]
      omega

/-- Whitespace characters surviving the collapse pass are plain spaces. -/
theorem collapseWsAux_space_mem :
    ∀ (l : List Char) (b : Bool) (c : Char),
      c ∈ collapseWsAux b l → isJsSpace c → c = ' ' := by
  intro l
  induction l with
  | nil =>
    intro b c h
    simp [collapseWsAux] at h
  | cons d rest ih =>
    intro b c h hs
    rw [collapseWsAux] at h
    by_cases hd : isJsSpace d
    · rw [if_pos hd] at h
      cases b with
      | true => exact ih true c (by simpa using h) hs
      | false =>
        simp only [Bool.false_eq_true, if_false] at h
        rcases List.mem_cons.mp h with rfl | h2
        · rfl
        · exact ih true c h2 hs
    · rw [if_neg hd] at h
      rcases List.mem_cons.mp h with rfl | h2
      · exact absurd hs hd
      · exact ih false c h2 hs

/-- Characters of the trimmed list come from the original list. -/
theorem mem_trimJs {c : Char} {l : List Char} (h : c ∈ trimJs l) : c ∈ l := by
  unfold trimJs at h
  rw [List.mem_reverse] at h
  have h2 : c ∈ (l.dropWhile isJsSpace).reverse := (List.dropWhile_sublist _).subset h
  rw [List.mem_reverse] at h2
  exact (List.dropWhile_sublist _).subset h2

/-- Trimming does not add whitespace characters. -/
theorem countP_trimJs_le (l : List Char) (p : Char → Bool) :
    (trimJs l).countP p ≤ l.countP p := by
  unfold trimJs
  calc ((l.dropWhile isJsSpace).reverse.dropWhile isJsSpace).reverse.countP p
      = ((l.dropWhile isJsSpace).reverse.dropWhile isJsSpace).countP p :=
        (List.reverse_perm _).countP_eq p
    _ ≤ (l.dropWhile isJsSpace).reverse.countP p :=
        (List.dropWhile_sublist _).countP_le p
    _ = (l.dropWhile isJsSpace).countP p := (List.reverse_perm _).countP_eq p
    _ ≤ l.countP p := (List.dropWhile_sublist _).countP_le p

/-- Trimming does not lengthen the list. -/
theorem length_trimJs_le (l : List Char) : (trimJs l).length ≤ l.length := by
  unfold trimJs
  calc ((l.dropWhile isJsSpace).reverse.dropWhile isJsSpace).reverse.length
      = ((l.dropWhile isJsSpace).reverse.dropWhile isJsSpace).length := List.length_reverse _
    _ ≤ (l.dropWhile isJsSpace).reverse.length := (List.dropWhile_sublist _).length_le
    _ = (l.dropWhile isJsSpace).length := List.length_reverse _
    _ ≤ l.length := (List.dropWhile_sublist _).length_le

/-- Unfolding equation for the splitter. -/
theorem splitOnSpaceAux_cons (acc : List Char) (d : Char) (rest : List Char) :
    splitOnSpaceAux acc (d :: rest) =
      if d = ' ' then acc.reverse :: splitOnSpaceAux [] rest
      else splitOnSpaceAux (d :: acc) rest := rfl

/-- The splitter never returns an empty list of segments. -/
theorem splitOnSpaceAux_ne_nil : ∀ (l acc : List Char), splitOnSpaceAux acc l ≠ [] := by
  intro l
  induction l with
  | nil =>
    intro acc
    simp [splitOnSpaceAux]
  | cons d rest ih =>
    intro acc
    rw [splitOnSpaceAux_cons]
    by_cases hd : d = ' '
    · rw [if_pos hd]
      simp
    · rw [if_neg hd]
      exact ih (d :: acc)

/-- Characters of every split segment come from the accumulator or the input
and are never the space separator. -/
theorem splitOnSpaceAux_chars :
    ∀ (l acc : List Char), (∀ c ∈ acc, c ≠ ' ') →
      ∀ w ∈ splitOnSpaceAux acc l, ∀ c ∈ w, (c ∈ acc ∨ c ∈ l) ∧ c ≠ ' ' := by
  intro l
  induction l with
  | nil =>
    intro acc hacc w hw c hc
    simp only [splitOnSpaceAux, List.mem_singleton] at hw
    subst hw
    rw [List.mem_reverse] at hc
    exact ⟨Or.inl hc, hacc c hc⟩
  | cons d rest ih =>
    intro acc hacc w hw c hc
    rw [splitOnSpaceAux_cons] at hw
    by_cases hd : d = ' '
    · rw [if_pos hd] at hw
      rcases List.mem_cons.mp hw with rfl | hw2
      · rw [List.mem_reverse] at hc
        exact ⟨Or.inl hc, hacc c hc⟩
      · have := ih [] (by simp) w hw2 c hc
        rcases this with ⟨hmem | hmem, hne⟩
        · simp at hmem
        · exact ⟨Or.inr (List.mem_cons_of_mem _ hmem), hne⟩
    · rw [if_neg hd] at hw
      have hacc2 : ∀ x ∈ d :: acc, x ≠ ' ' := by
        intro x hx
        rcases List.mem_cons.mp hx with rfl | hx2
        · exact hd
        · exact hacc x hx2
      have := ih (d :: acc) hacc2 w hw c hc
      rcases this with ⟨hmem | hmem, hne⟩
      · rcases List.mem_cons.mp hmem with rfl | hmem2
        · exact ⟨Or.inr (List.mem_cons_self _ _), hne⟩
        · exact ⟨Or.inl hmem2, hne⟩
      · exact ⟨Or.inr (List.mem_cons_of_mem _ hmem), hne⟩

/-- Unfolding equation for the joiner on two or more segments. -/
theorem joinSpace_cons2 (w v : List Char) (rest : List (List Char)) :
    joinSpace (w :: v :: rest) = w ++ ' ' :: joinSpace (v :: rest) := rfl

/-- Joining space-free words introduces one space per gap: at most
`ws.length - 1` whitespace characters in total. -/
theorem countP_joinSpace (ws : List (List Char)) (hne : ws ≠ [])
    (h : ∀ w ∈ ws, w.countP isJsSpace = 0) :
    (joinSpace ws).countP isJsSpace + 1 ≤ ws.length := by
  induction ws with
  | nil => exact absurd rfl hne
  | cons w ws ih =>
    cases ws with
    | nil =>
      have := h w (List.mem_cons_self _ _)
      simp [joinSpace, this]
    | cons v rest =>
      rw [joinSpace_cons2, List.countP_append, List.countP_cons]
      have hw := h w (List.mem_cons_self _ _)
      have hrec := ih (by simp) (fun x hx => h x (List.mem_cons_of_mem _ hx))
      have hsp : (isJsSpace ' ' : Bool) = true := by decide
      simp only [hsp, if_true, hw, List.length_cons] at hrec ⊢
      omega

/-- If all whitespace in `s3` is a plain space, the 5-word join has at most
4 whitespace characters. -/
theorem countP_titleCore_le (s3 : List Char)
    (hsp : ∀ c ∈ s3, isJsSpace c → c = ' ') :
    (joinSpace ((splitOnSpace s3).take 5)).countP isJsSpace ≤ 4 := by
  have hwords : ∀ w ∈ (splitOnSpace s3).take 5, w.countP isJsSpace = 0 := by
    intro w hw
    have hw2 : w ∈ splitOnSpace s3 := (List.take_sublist _ _).subset hw
    rw [List.countP_eq_zero]
    intro c hc
    have := splitOnSpaceAux_chars s3 [] (by simp) w hw2 c hc
    rcases this with ⟨hmem | hmem, hne⟩
    · simp at hmem
    · intro hjs
      exact hne (hsp c hmem hjs)
  obtain ⟨w, rest, hsplit⟩ : ∃ w rest, splitOnSpace s3 = w :: rest := by
    cases hsp2 : splitOnSpace s3 with
    | nil => exact absurd hsp2 (splitOnSpaceAux_ne_nil s3 [])
    | cons w rest => exact ⟨w, rest, rfl⟩
  have hne : (splitOnSpace s3).take 5 ≠ [] := by
    rw [hsplit]
    simp
  have hlen : ((splitOnSpace s3).take 5).length ≤ 5 := List.length_take_le _ _
  have := countP_joinSpace _ hne hwords
  omega

/-- Every whitespace character of the collapsed-and-trimmed string is a
plain space. -/
theorem trimmed_collapse_space (l : List Char) :
    ∀ c ∈ trimJs (collapseWs l), isJsSpace c → c = ' ' := by
  intro c hc hjs
  exact collapseWsAux_space_mem l false c (mem_trimJs hc) hjs

/-- All-whitespace input collapses and trims to the empty list. -/
theorem trimJs_collapse_all_space (l : List Char) (h : ∀ c ∈ l, isJsSpace c) :
    trimJs (collapseWs l) = [] := by
  have hall : ∀ c ∈ collapseWs l, isJsSpace c = true := by
    have : ∀ (b : Bool) (m : List Char), (∀ c ∈ m, isJsSpace c) →
        ∀ c ∈ collapseWsAux b m, isJsSpace c = true := by
      intro b m
      induction m generalizing b with
      | nil =>
        intro _ c hc
        simp [collapseWsAux] at hc
      | cons d rest ih =>
        intro hm c hc
        rw [collapseWsAux] at hc
        have hd : isJsSpace d := hm d (List.mem_cons_self _ _)
        rw [if_pos hd] at hc
        have hrest : ∀ x ∈ rest, isJsSpace x := fun x hx => hm x (List.mem_cons_of_mem _ hx)
        cases b with
        | true => exact ih true hrest c (by simpa using hc)
        | false =>
          simp only [Bool.false_eq_true, if_false] at hc
          rcases List.mem_cons.mp hc with rfl | hc2
          · decide
          · exact ih true hrest c hc2
    exact this false l h
  unfold trimJs
  have h1 : (collapseWs l).dropWhile isJsSpace = [] := List.dropWhile_eq_nil_iff.mpr hall
  rw [h1]
  simp

/-- All-whitespace input is untouched by the Markdown and quote stripping. -/
theorem strip_steps_all_space (l : List Char) (h : ∀ c ∈ l, isJsSpace c) :
    dropTrailingQuotes (dropLeadingQuotes (stripMd l)) = l := by
  have hmd : stripMd l = l := by
    unfold stripMd
    rw [List.filter_eq_self]
    intro c hc
    have hjs := h c hc
    simp only [decide_eq_true_eq]
    intro hmem
    have : ¬ isJsSpace c := by
      simp only [mdChars, List.mem_cons, List.not_mem_nil, or_false] at hmem
      rcases hmem with rfl | rfl | rfl | rfl | rfl | rfl | rfl | rfl | rfl <;> decide
    exact this hjs
  rw [hmd]
  have hlead : dropLeadingQuotes l = l := by
    unfold dropLeadingQuotes
    have : l.dropWhile isJsSpace = [] := List.dropWhile_eq_nil_iff.mpr h
    rw [this]
    simp
  rw [hlead]
  unfold dropTrailingQuotes
  have : l.reverse.dropWhile isJsSpace = [] := by
    rw [List.dropWhile_eq_nil_iff]
    intro c hc
    exact h c (List.mem_reverse.mp hc)
  rw [this]
  simp

set_option maxRecDepth 100000 in
/-- Claim C7: `sanitizeTitle` always returns at most 5 words and at most 64
characters; any all-whitespace input (the empty string included) yields
exactly "New Chat"; the specification's long quoted example yields its first
five words. -/
theorem title_sanitation (t : String) :
    wordCount (sanitizeTitle t).data ≤ 5 ∧
    (sanitizeTitle t).length ≤ 64 ∧
    ((∀ c ∈ t.data, isJsSpace c) → sanitizeTitle t = "New Chat") ∧
    sanitizeTitle "" = "New Chat" ∧
    sanitizeTitle "  \"Hello, World! This is a very long chat title that exceeds sixty four characters for sure\"  " = "Hello, World! This is a" := by
  have hmain : ∀ (l : List Char), wordCount (sanitizeList l) ≤ 5 ∧ (sanitizeList l).length ≤ 64 := by
    intro l
    unfold sanitizeList
    by_cases h3 : titleTrimmed l = []
    · rw [if_pos h3]
      exact ⟨by decide, by decide⟩
    · rw [if_neg h3]
      have hsp : ∀ c ∈ titleTrimmed l, isJsSpace c → c = ' ' :=
        trimmed_collapse_space (dropTrailingQuotes (dropLeadingQuotes (stripMd l)))
      have hcnt : (titleJoined l).countP isJsSpace ≤ 4 := countP_titleCore_le _ hsp
      by_cases h4 : 64 < (titleJoined l).length
      · rw [if_pos h4]
        constructor
        · have hc1 := countP_trimJs_le ((titleJoined l).take 64) isJsSpace
          have hc2 := (List.take_sublist 64 (titleJoined l)).countP_le isJsSpace
          have hw := (wordCountAux_le_countP (trimJs ((titleJoined l).take 64))).2
          unfold wordCount
          omega
        · have hl1 := length_trimJs_le ((titleJoined l).take 64)
          have hl2 := List.length_take_le 64 (titleJoined l)
          omega
      · rw [if_neg h4]
        refine ⟨?_, by omega⟩
        have hw := (wordCountAux_le_countP (titleJoined l)).2
        unfold wordCount
        omega
  refine ⟨(hmain t.data).1, (hmain t.data).2, ?_, by decide, by decide⟩
  intro hws
  show String.mk (sanitizeList t.data) = "New Chat"
  have h0 : titleTrimmed t.data = [] := by
    unfold titleTrimmed
    rw [strip_steps_all_space t.data hws]
    exact trimJs_collapse_all_space t.data hws
  unfold sanitizeList
  rw [if_pos h0]

/-- Witness for C7: a whitespace-only input yields "New Chat". -/
theorem title_sanitation_witness : sanitizeTitle "   " = "New Chat" :=
  (title_sanitation "   ").2.2.1 (by decide)

end MultiAgentChat
